import Mathlib

/-!
# Verification of the OpenWorld Specialty Chemicals real-time compliance core

A shallow embedding, over `ℚ` and plain lists, of:

* the rule-evaluation engine (`rule_engine.py`: `rolling_mean`,
  `evaluate_permit` in its tidy-format branch, `_get_severity`) and the
  alternate severity tiering (`rules.py`: `_severity`);
* the dashboard WebSocket hub loop (`dashboard/__init__.py`:
  `websocket_effluent`) — buffer with oldest-eviction, per-connection
  fixed-window rate limiter, byte-size ceiling, local fan-out and the
  Redis cross-instance bridge (`_start_redis_subscriber`);
* the resilient advice client (`agents/openai_agent.py`:
  `OpenAIAdviceAgent`) — sanitization, cache, circuit breaker and the
  retry loop of `advise`.

Floating-point numbers are modelled by `ℚ`; JSON payloads that the code
treats opaquely are modelled by opaque tokens (`ℕ`); the SHA-256 cache key
is modelled by the (model, payload) pair it is computed from, which is
faithful for every property that only needs the key to be a deterministic
function of those two inputs.  Presentation-only `message` strings built
with float `%.3f` formatting are omitted from the Alert record.
-/

namespace OWSC

/-! ## Rule engine data model (`rule_engine.py`) -/

/-- A tidy-format row of the readings frame: columns `time`, `species`,
`concentration` (`df` in `evaluate_permit`'s first branch). -/
structure Reading where
  time : ℚ
  species : String
  concentration : ℚ
deriving DecidableEq

/-- The permit document as read by `evaluate_permit`: `limits` (the
`limits_mgL` / `limits` mapping), `rolling_window` (default 3 at the call
sites) and per-species `actions`. Python dicts are modelled as
association lists. -/
structure Permit where
  limits : List (String × ℚ)
  rolling_window : ℕ
  actions : List (String × String)

/-- An alert dict produced by `evaluate_permit`.  The presentational
`message` field (float-formatted text) is not modelled. -/
structure Alert where
  time : ℚ
  species : String
  type : String
  level : String
  value : ℚ
  limit : ℚ
  action : String
deriving DecidableEq

/-- `dict.get(k, default)` on an association list. -/
def dictGetD (m : List (String × String)) (k : String) (d : String) : String :=
  match m.find? (fun p => p.1 == k) with
  | some p => p.2
  | none => d

/-- `np.convolve(x, np.ones(w), "valid")`: sums over every alignment where
the shorter sequence overlaps the longer one completely.  For
`w ≤ x.length` these are the sums of the contiguous length-`w` windows of
`x`; for `x.length < w` every complete overlap covers all of `x`, so the
result is `w - x.length + 1` copies of `x.sum`.  NumPy raises
`ValueError` when either argument is empty, modelled by `none`. -/
def convolveOnesValid (x : List ℚ) (w : ℕ) : Option (List ℚ) :=
  if x.isEmpty ∨ w = 0 then none
  else if w ≤ x.length then
    some ((List.range (x.length - w + 1)).map (fun j => ((x.drop j).take w).sum))
  else
    some ((List.range (w - x.length + 1)).map (fun _ => x.sum))

/-- `rolling_mean(x, w)` from `rule_engine.py`: identity for `w ≤ 1`,
otherwise the valid convolution divided by `w`, back-filled on the left
with `w - 1` copies of its first entry (`c[0]`, whose failure on an empty
`c` would propagate, modelled through `Option`). -/
def rolling_mean (x : List ℚ) (w : ℕ) : Option (List ℚ) :=
  if w ≤ 1 then some x
  else
    match convolveOnesValid x w with
    | none => none
    | some s =>
      let c := s.map (fun v => v / (w : ℚ))
      match c.head? with
      | none => none
      | some c0 => some (List.replicate (w - 1) c0 ++ c)

/-- `_get_severity(value, limit)` from `rule_engine.py`. -/
def _get_severity (value limit : ℚ) : String :=
  let ratio := value / limit
  if ratio ≥ 2 then "critical"
  else if ratio ≥ 3/2 then "warning"
  else if ratio ≥ 5/4 then "watch"
  else if ratio ≥ 1 then "info"
  else "info"

/-- `_severity(value, limit)` from `rules.py` (the alternate, stricter
tiering used by `check_permit`). -/
def _severity (value limit : ℚ) : String :=
  if value ≥ 5/4 * limit then "critical"
  else if value ≥ 21/20 * limit then "warning"
  else if value ≥ limit then "watch"
  else "info"

/-- The per-species body of `evaluate_permit`'s tidy-format loop: select
this species' rows, skip the species when none exist, emit the exceedance
alert when the last concentration exceeds the limit, and the trend alert
when at least `window` readings exist and the last rolling mean exceeds
the limit.  A (provably unreachable) runtime failure of `rolling_mean`
propagates as `none`. -/
def speciesAlerts (window : ℕ) (actions : List (String × String))
    (rs : List Reading) (sp : String) (limit : ℚ) : Option (List Alert) :=
  let species_data := rs.filter (fun r => r.species == sp)
  match species_data.getLast? with
  | none => some []
  | some lastRow =>
    let concentrations := species_data.map (fun r => r.concentration)
    let current_val := lastRow.concentration
    let exceed : List Alert :=
      if current_val > limit then
        [{ time := lastRow.time, species := sp, type := "exceedance",
           level := _get_severity current_val limit,
           value := current_val, limit := limit,
           action := dictGetD actions sp ("Review " ++ sp ++ " treatment process") }]
      else []
    if window ≤ concentrations.length then
      match rolling_mean concentrations window with
      | none => none
      | some rm =>
        match rm.getLast? with
        | none => none
        | some trend_val =>
          if trend_val > limit then
            some (exceed ++
              [{ time := lastRow.time, species := sp, type := "trend",
                 level := _get_severity trend_val limit,
                 value := trend_val, limit := limit,
                 action := dictGetD actions sp ("Review " ++ sp ++ " treatment process") }])
          else some exceed
    else some exceed

/-- Iteration over the permit's limit map (`for sp, limit in limits.items()`),
concatenating each species' alerts in order. -/
def evaluatePermitAux (window : ℕ) (actions : List (String × String))
    (rs : List Reading) : List (String × ℚ) → Option (List Alert)
  | [] => some []
  | (sp, limit) :: rest =>
    match speciesAlerts window actions rs sp limit with
    | none => none
    | some a =>
      match evaluatePermitAux window actions rs rest with
      | none => none
      | some b => some (a ++ b)

/-- `evaluate_permit(df, permit)` from `rule_engine.py`, tidy-format
branch (the `df` has `species`/`concentration` columns). -/
def evaluate_permit (rs : List Reading) (p : Permit) : Option (List Alert) :=
  evaluatePermitAux p.rolling_window p.actions rs p.limits

/-- The simple moving average of the last `w` values, written from the
spec's words ("the simple moving average over the last `rolling_window`
values"), to be compared with what the code computes. -/
def lastWindowMean (xs : List ℚ) (w : ℕ) : ℚ :=
  (xs.drop (xs.length - w)).sum / (w : ℚ)

/-- The exceedance alert record that `evaluate_permit` appends for a
species `sp` whose most recent reading `r` exceeds `limit` (named here
only to abbreviate statements; it is exactly the dict built at the
`exceedance` append site). -/
def exceedanceAlert (actions : List (String × String)) (sp : String)
    (limit : ℚ) (r : Reading) : Alert :=
  { time := r.time, species := sp, type := "exceedance",
    level := _get_severity r.concentration limit,
    value := r.concentration, limit := limit,
    action := dictGetD actions sp ("Review " ++ sp ++ " treatment process") }

/-! ## WebSocket hub (`dashboard/__init__.py`, `websocket_effluent`) -/

/-- Hub configuration: `max_buffer` (the `build_app` argument, default
1024), the byte ceiling `OW_SC_WS_MAX_MESSAGE_BYTES` (default 8192), the
per-connection rate `OW_SC_WS_MSGS_PER_SEC` (default 20), whether a Redis
client is configured (`app.state.redis is not None`), and this instance's
identity (`app.state.instance_id`). -/
structure WsConfig where
  max_buffer : ℕ
  max_msg : ℕ
  msgs_per_sec : ℕ
  redisEnabled : Bool
  instance_id : String

/-- One inbound WebSocket message: its arrival time (`time.time()`), the
byte size of its JSON encoding after the timestamp is stamped in, and its
payload, an opaque token for the JSON object the code never inspects. -/
structure WsMsg where
  now : ℚ
  size : ℕ
  data : ℕ
deriving DecidableEq

/-- The server state the `websocket_effluent` receive loop touches, plus
ghost logs: `accepted` records every payload that reached the buffer
append, `broadcasts` every (connection, payload) pair delivered by the
local fan-out, and `published` every (origin, payload) pair published to
the Redis channel.  The ghost logs are write-only history variables; no
step reads them. -/
structure WsState where
  connections : List String
  buffer : List ℕ
  rl_win_start : Option ℚ
  rl_win_cnt : ℕ
  msg_recv_total : ℕ
  msg_broadcast_total : ℕ
  ws_errors_total : ℕ
  accepted : List ℕ
  broadcasts : List (String × ℕ)
  published : List (String × ℕ)
deriving DecidableEq

/-- Python `buffer[-m:]`: the last `m` entries of the list — except that
`-0` is `0`, so for `m = 0` the slice is the whole list. -/
def pyTakeLast (m : ℕ) (l : List ℕ) : List ℕ :=
  if m = 0 then l else l.drop (l.length - m)

/-- One iteration of the `websocket_effluent` receive loop for the
connection `sender`, given which receivers' sends raise
(`sendFails`). Follows the source order: count the receive; drop oversize
messages (error count +1); run the fixed-window rate limiter (reset when
unset, when the stored start is falsy `0`, or after one second; drop and
count an error over `msgs_per_sec`); append to the buffer and trim with
`buffer[-max_buffer:]`; fan out to every connection other than the
sender, counting errors and collecting failed connections for removal;
finally publish `{origin, payload}` to the Redis channel if configured. -/
def wsStep (cfg : WsConfig) (sendFails : String → Bool) (sender : String)
    (s : WsState) (m : WsMsg) : WsState :=
  let s := { s with msg_recv_total := s.msg_recv_total + 1 }
  if cfg.max_msg < m.size then
    { s with ws_errors_total := s.ws_errors_total + 1 }
  else
    let reset : Bool :=
      match s.rl_win_start with
      | none => true
      | some w => decide (w = 0) || decide (1 ≤ m.now - w)
    let winStart : ℚ := if reset then m.now else (s.rl_win_start.getD m.now)
    let cnt : ℕ := (if reset then 0 else s.rl_win_cnt) + 1
    let s := { s with rl_win_start := some winStart, rl_win_cnt := cnt }
    if cfg.msgs_per_sec < cnt then
      { s with ws_errors_total := s.ws_errors_total + 1 }
    else
      let buf0 := s.buffer ++ [m.data]
      let buf := if cfg.max_buffer < buf0.length then pyTakeLast cfg.max_buffer buf0 else buf0
      let targets := s.connections.filter (fun c => !(c == sender))
      let ok := targets.filter (fun c => !(sendFails c))
      let bad := targets.filter (fun c => sendFails c)
      { s with
        buffer := buf
        accepted := s.accepted ++ [m.data]
        broadcasts := s.broadcasts ++ ok.map (fun c => (c, m.data))
        msg_broadcast_total := s.msg_broadcast_total + ok.length
        ws_errors_total := s.ws_errors_total + bad.length
        connections := s.connections.filter (fun c => !(bad.contains c))
        published := s.published ++
          (if cfg.redisEnabled then [(cfg.instance_id, m.data)] else []) }

/-- The receive loop over a message sequence. -/
def wsRun (cfg : WsConfig) (sendFails : String → Bool) (sender : String) :
    WsState → List WsMsg → WsState
  | s, [] => s
  | s, m :: ms => wsRun cfg sendFails sender (wsStep cfg sendFails sender s m) ms

/-- The state right after `build_app`: empty buffer, zeroed counters and
rate-limit window, the given set of registered connections. -/
def wsInit (conns : List String) : WsState :=
  { connections := conns, buffer := [], rl_win_start := none, rl_win_cnt := 0,
    msg_recv_total := 0, msg_broadcast_total := 0, ws_errors_total := 0,
    accepted := [], broadcasts := [], published := [] }

/-- The suffix of the last `m` entries, written from the spec's words
("the Buffer always equals the suffix of the accepted-message
sequence"). -/
def takeLast (m : ℕ) (l : List ℕ) : List ℕ :=
  l.drop (l.length - m)

/-- A message on the shared Redis channel: the publishing instance's
`origin` tag and the payload. -/
structure BridgeMsg where
  origin : String
  payload : ℕ
deriving DecidableEq

/-- One iteration of `_start_redis_subscriber`'s listen loop: the local
deliveries it performs and the messages it re-publishes.  A message whose
`origin` equals this instance's id is skipped; otherwise the payload is
sent to every local connection whose send does not fail.  The re-publish
component is always empty, mirroring the absence of any publish call in
the loop body. -/
def redisStep (instance_id : String) (conns : List String)
    (sendFails : String → Bool) (m : BridgeMsg) :
    List (String × ℕ) × List BridgeMsg :=
  if m.origin == instance_id then ([], [])
  else ((conns.filter (fun c => !(sendFails c))).map (fun c => (c, m.payload)), [])

/-! ## Resilient advice client (`agents/openai_agent.py`) -/

/-- An entry of the `alerts` iterable handed to `advise`: the fields
`_sanitize_alerts` reads, plus `ok`, which models "is a dict and its
`value`/`limit`/`time` coerce to float" (entries failing either test are
skipped by the source). -/
structure AlertDict where
  species : String
  value : ℚ
  limit : ℚ
  time : ℚ
  ok : Bool
deriving DecidableEq

/-- A sanitized alert as built by `_sanitize_alerts`. -/
structure SanAlert where
  time : ℚ
  species : String
  value : ℚ
  limit : ℚ
deriving DecidableEq

/-- `_sanitize_alerts`: skip malformed entries, truncate `species` to 64
characters, cap the list at 128 entries. -/
def _sanitize_alerts (alerts : List AlertDict) : List SanAlert :=
  ((alerts.filter (fun a => a.ok)).map
    (fun a => { time := a.time, species := a.species.take 64,
                value := a.value, limit := a.limit })).take 128

/-- The advice response: the `actions`/`rationale` dict `advise` returns. -/
structure AdviceResponse where
  actions : List String
  rationale : String
deriving DecidableEq

/-- Client configuration from `__init__`: model id, `max_retries`,
`breaker_threshold`, `breaker_window_sec`, and whether the sqlite cache
initialised (`self.cache_db is not None`). -/
structure AgentConfig where
  model : String
  max_retries : ℕ
  breaker_threshold : ℕ
  breaker_window_sec : ℚ
  cacheEnabled : Bool

/-- Mutable client state: the breaker's failure timestamps
(`self._failures`) and the persistent cache table, keyed by cache key. -/
structure AgentState where
  failures : List ℚ
  cache : List ((String × List SanAlert) × AdviceResponse)
deriving DecidableEq

/-- `_cache_key`: the SHA-256 hash of the model id and the canonical JSON
of the payload, modelled by the (model, payload) pair itself — the hash
is a deterministic function of exactly these two inputs, which is all the
verified properties rely on. -/
def _cache_key (model : String) (payload : List SanAlert) :
    String × List SanAlert :=
  (model, payload)

/-- `_cache_get`: `None` when the cache is disabled, otherwise the stored
row for the key (JSON round-trip through the sqlite row is the
identity). -/
def _cache_get (cfg : AgentConfig) (st : AgentState)
    (k : String × List SanAlert) : Option AdviceResponse :=
  if cfg.cacheEnabled then
    match st.cache.find? (fun p => decide (p.1 = k)) with
    | some p => some p.2
    | none => none
  else none

/-- sqlite `upsert` on the primary key: replace the row if present,
insert otherwise. -/
def cacheUpsert (cache : List ((String × List SanAlert) × AdviceResponse))
    (k : String × List SanAlert) (v : AdviceResponse) :
    List ((String × List SanAlert) × AdviceResponse) :=
  if (cache.find? (fun p => decide (p.1 = k))).isSome then
    cache.map (fun p => if p.1 = k then (k, v) else p)
  else cache ++ [(k, v)]

/-- `_cache_set`: a no-op when the cache is disabled. -/
def _cache_set (cfg : AgentConfig) (st : AgentState)
    (k : String × List SanAlert) (v : AdviceResponse) : AgentState :=
  if cfg.cacheEnabled then { st with cache := cacheUpsert st.cache k v } else st

/-- `prunedFailures`: the retained failure timestamps after
`_breaker_open`'s pruning (`now - t <= breaker_window_sec`). -/
def prunedFailures (windowSec now : ℚ) (fs : List ℚ) : List ℚ :=
  fs.filter (fun t => decide (now - t ≤ windowSec))

/-- `_breaker_open`: at least `breaker_threshold` failures remain within
the trailing window. -/
def _breaker_open (cfg : AgentConfig) (now : ℚ) (fs : List ℚ) : Bool :=
  cfg.breaker_threshold ≤ (prunedFailures cfg.breaker_window_sec now fs).length

/-- The degraded response of the circuit-breaker short-circuit. -/
def degradedOpen : AdviceResponse :=
  { actions := ["Check process"], rationale := "Upstream unavailable (circuit open)." }

/-- The degraded response returned after exhausting retries. -/
def degradedFail : AdviceResponse :=
  { actions := ["Check process"], rationale := "Failed to retrieve advice." }

/-- The provider's parsed JSON on a successful call: `actions` when
present as a list, `rationale` when present as a string (`none` models a
missing or wrongly-typed field). -/
structure RawOut where
  actions : Option (List String)
  rationale : Option String
deriving DecidableEq

/-- The coercion in `advise`'s success path: invalid `actions`/`rationale`
fields are replaced by safe defaults rather than treated as failures. -/
def coerceOut (r : RawOut) : AdviceResponse :=
  { actions := r.actions.getD ["Check process"],
    rationale := r.rationale.getD "Model returned invalid rationale." }

/-- The retry loop of `advise`.  `a` is the 1-based number of the attempt
about to run against the network oracle `net` (`none` = the call raised,
`some` = it returned); `gas` is the number of retries still allowed after
this attempt (`max_retries - a` on entry).  On success the response is
coerced, written through to the cache and returned; on failure the
timestamp is recorded and, once attempts reach `max_retries`, the loop
breaks with the degraded response.  Returns (response, state, attempts
made). -/
def adviseLoop (cfg : AgentConfig) (net : ℕ → Option RawOut) (now : ℚ)
    (key : String × List SanAlert) :
    ℕ → ℕ → AgentState → AdviceResponse × AgentState × ℕ
  | a, gas, st =>
    match net a with
    | some raw =>
      let out := coerceOut raw
      (out, _cache_set cfg st key out, a)
    | none =>
      let st := { st with failures := st.failures ++ [now] }
      match gas with
      | 0 => (degradedFail, st, a)
      | gas + 1 => adviseLoop cfg net now key (a + 1) gas st

/-- `advise(alerts)`: sanitize, try the cache, then the circuit breaker
(whose check prunes the stored failure list), then the retry loop.
Returns the response, the client state after the call, and the number of
network attempts performed. -/
def advise (cfg : AgentConfig) (st : AgentState) (now : ℚ)
    (net : ℕ → Option RawOut) (alerts : List AlertDict) :
    AdviceResponse × AgentState × ℕ :=
  let payload := _sanitize_alerts alerts
  let key := _cache_key cfg.model payload
  match _cache_get cfg st key with
  | some v => (v, st, 0)
  | none =>
    let fs := prunedFailures cfg.breaker_window_sec now st.failures
    let st := { st with failures := fs }
    if cfg.breaker_threshold ≤ fs.length then
      (degradedOpen, st, 0)
    else
      adviseLoop cfg net now key 1 (cfg.max_retries - 1) st

/-- The severity ordering info < watch < warning < critical, as a rank. -/
def sevRank (s : String) : ℕ :=
  if s = "watch" then 1
  else if s = "warning" then 2
  else if s = "critical" then 3
  else 0

/-- The primary tiering written from the spec's words: "ratio ≥ 2.0 →
critical, ratio ≥ 1.5 → warning, ratio ≥ 1.25 → watch, ratio ≥ 1.0 →
info", as a function of the ratio. -/
def specPrimaryTier (r : ℚ) : String :=
  if r ≥ 2 then "critical"
  else if r ≥ 3/2 then "warning"
  else if r ≥ 5/4 then "watch"
  else if r ≥ 1 then "info"
  else "info"

/-- The alternate, stricter tiering written from the spec's words:
"critical ≥ 1.25×, warning ≥ 1.05×, watch ≥ 1.0×". -/
def specStrictTier (value limit : ℚ) : String :=
  if value ≥ 5/4 * limit then "critical"
  else if value ≥ 21/20 * limit then "warning"
  else if value ≥ limit then "watch"
  else "info"

/-! ## List helper lemmas -/

lemma range_map_const {α : Type} (k : ℕ) (a : α) :
    (List.range k).map (fun _ => a) = List.replicate k a := by
  induction k with
  | zero => rfl
  | succ n ih =>
    rw [List.range_succ, List.map_append, ih, List.replicate_succ']
    rfl

lemma drop_sub_one_eq_getLast (xs : List ℚ) (h : xs ≠ []) :
    xs.drop (xs.length - 1) = [xs.getLast h] := by
  induction xs with
  | nil => exact absurd rfl h
  | cons x t ih =>
    cases t with
    | nil => rfl
    | cons y t' =>
      have hne : (y :: t') ≠ [] := by simp
      have : (x :: y :: t').drop ((x :: y :: t').length - 1)
          = (y :: t').drop ((y :: t').length - 1) := by
        simp [List.length_cons]
      rw [this, ih hne, List.getLast_cons hne]

/-! ## Characterization of `rolling_mean` -/

lemma rolling_mean_le_one (x : List ℚ) (w : ℕ) (hw : w ≤ 1) :
    rolling_mean x w = some x := by
  simp [rolling_mean, hw]

lemma rolling_mean_empty (w : ℕ) (h2 : 2 ≤ w) :
    rolling_mean ([] : List ℚ) w = none := by
  have : ¬ w ≤ 1 := by omega
  simp [rolling_mean, this, convolveOnesValid]

lemma convolveOnesValid_full (x : List ℚ) (w : ℕ) (h2 : 2 ≤ w) (hwn : w ≤ x.length) :
    convolveOnesValid x w =
      some ((List.range (x.length - w + 1)).map (fun j => ((x.drop j).take w).sum)) := by
  have hne : ¬ x.isEmpty := by
    cases x with
    | nil => simp at hwn; omega
    | cons a t => simp
  have hw0 : w ≠ 0 := by omega
  simp [convolveOnesValid, hne, hw0, hwn]

lemma convolveOnesValid_short (x : List ℚ) (w : ℕ) (hne : x ≠ [])
    (hlt : x.length < w) :
    convolveOnesValid x w = some (List.replicate (w - x.length + 1) x.sum) := by
  have hne' : ¬ x.isEmpty := by simp [List.isEmpty_iff, hne]
  have hw0 : w ≠ 0 := by omega
  have hnw : ¬ w ≤ x.length := by omega
  simp [convolveOnesValid, hne', hw0, hnw, range_map_const]

/-- For a full window (`2 ≤ w ≤ |x|`) `rolling_mean` succeeds and returns
the left-padded sequence of sliding-window means. -/
lemma rolling_mean_full (x : List ℚ) (w : ℕ) (h2 : 2 ≤ w) (hwn : w ≤ x.length) :
    rolling_mean x w =
      some (List.replicate (w - 1) ((x.take w).sum / (w : ℚ)) ++
        (List.range (x.length - w + 1)).map (fun j => ((x.drop j).take w).sum / (w : ℚ))) := by
  have hw1 : ¬ w ≤ 1 := by omega
  rw [rolling_mean]
  simp only [hw1, if_false]
  rw [convolveOnesValid_full x w h2 hwn]
  have hrange : List.range (x.length - w + 1) = 0 :: (List.range (x.length - w)).map Nat.succ :=
    List.range_succ_eq_map _
  rw [hrange]
  dsimp only
  simp [List.map_map, Function.comp]

/-- For a short nonempty input (`0 < |x| < w`) `rolling_mean` does **not**
fail: it returns `2*w - |x|` copies of `x.sum / w`. -/
lemma rolling_mean_short (x : List ℚ) (w : ℕ) (h2 : 2 ≤ w) (hne : x ≠ [])
    (hlt : x.length < w) :
    rolling_mean x w = some (List.replicate (2 * w - x.length) (x.sum / (w : ℚ))) := by
  have hw1 : ¬ w ≤ 1 := by omega
  rw [rolling_mean]
  simp only [hw1, if_false]
  rw [convolveOnesValid_short x w hne hlt]
  rw [List.replicate_succ]
  dsimp only [List.map_cons, List.head?]
  simp only [Option.some.injEq, List.map_replicate]
  rw [← List.replicate_succ, ← List.replicate_add]
  congr 1
  omega

lemma rolling_mean_isSome (x : List ℚ) (w : ℕ) (hne : x ≠ []) :
    (rolling_mean x w).isSome := by
  by_cases hw : w ≤ 1
  · rw [rolling_mean_le_one x w hw]; rfl
  · have h2 : 2 ≤ w := by omega
    by_cases hlen : w ≤ x.length
    · rw [rolling_mean_full x w h2 hlen]; rfl
    · rw [rolling_mean_short x w h2 hne (by omega)]; rfl

lemma rolling_mean_ne_nil (x : List ℚ) (w : ℕ) (hne : x ≠ []) (l : List ℚ)
    (h : rolling_mean x w = some l) : l ≠ [] := by
  by_cases hw : w ≤ 1
  · rw [rolling_mean_le_one x w hw] at h
    cases h
    exact hne
  · have h2 : 2 ≤ w := by omega
    by_cases hlen : w ≤ x.length
    · rw [rolling_mean_full x w h2 hlen] at h
      cases h
      apply List.ne_nil_of_length_pos
      simp only [List.length_append, List.length_replicate, List.length_map,
        List.length_range]
      omega
    · rw [rolling_mean_short x w h2 hne (by omega)] at h
      cases h
      apply List.ne_nil_of_length_pos
      simp only [List.length_replicate]
      omega

/-- The last entry of the code's rolling mean equals the spec-side simple
moving average of the last `w` values (for any nonempty input with at
least `w` entries and `w ≥ 1`). -/
lemma rolling_mean_getLast (x : List ℚ) (w : ℕ) (h1 : 1 ≤ w) (hwn : w ≤ x.length)
    (l : List ℚ) (h : rolling_mean x w = some l) :
    l.getLast? = some (lastWindowMean x w) := by
  have hne : x ≠ [] := by
    intro hx
    rw [hx] at hwn
    simp at hwn
    omega
  by_cases hw : w ≤ 1
  · have hw1 : w = 1 := by omega
    subst hw1
    rw [rolling_mean_le_one x 1 (le_refl 1)] at h
    cases h
    rw [List.getLast?_eq_getLast _ hne]
    rw [lastWindowMean, drop_sub_one_eq_getLast x hne]
    simp
  · have h2 : 2 ≤ w := by omega
    rw [rolling_mean_full x w h2 hwn] at h
    cases h
    have hrange : List.range (x.length - w + 1) = List.range (x.length - w) ++ [x.length - w] :=
      List.range_succ (x.length - w)
    rw [hrange, List.map_append]
    rw [← List.append_assoc, List.map_singleton, List.getLast?_concat]
    rw [lastWindowMean]
    have hdrop : (x.drop (x.length - w)).take w = x.drop (x.length - w) := by
      apply List.take_of_length_le
      simp only [List.length_drop]
      omega
    rw [hdrop]

/-! ## Per-species characterization of `speciesAlerts` -/

lemma speciesAlerts_isSome (window : ℕ) (actions : List (String × String))
    (rs : List Reading) (sp : String) (limit : ℚ) :
    (speciesAlerts window actions rs sp limit).isSome := by
  unfold speciesAlerts
  dsimp only
  split
  · rfl
  · next lastRow hlast =>
    have hsd : rs.filter (fun r => r.species == sp) ≠ [] := by
      intro hnil
      rw [hnil] at hlast
      cases hlast
    have hconc : (rs.filter (fun r => r.species == sp)).map (fun r => r.concentration) ≠ [] := by
      simp [hsd]
    split
    · split
      · next hrm =>
        have := rolling_mean_isSome ((rs.filter (fun r => r.species == sp)).map
          (fun r => r.concentration)) window hconc
        rw [hrm] at this
        cases this
      · next rm hrm =>
        have hrmne : rm ≠ [] := rolling_mean_ne_nil _ window hconc rm hrm
        split
        · next hlast2 =>
          rw [List.getLast?_eq_getLast rm hrmne] at hlast2
          cases hlast2
        · next tv hlast2 =>
          split <;> rfl
    · rfl

lemma speciesAlerts_species (window : ℕ) (actions : List (String × String))
    (rs : List Reading) (sp : String) (limit : ℚ) (out : List Alert)
    (h : speciesAlerts window actions rs sp limit = some out) :
    ∀ a ∈ out, a.species = sp := by
  unfold speciesAlerts at h
  dsimp only at h
  split at h
  · cases h
    intro a ha
    cases ha
  · split at h
    · split at h
      · cases h
      · split at h
        · cases h
        · split at h
          · cases h
            intro a ha
            rw [List.mem_append] at ha
            rcases ha with ha | ha
            · split at ha
              · rw [List.mem_singleton] at ha
                rw [ha]
              · cases ha
            · rw [List.mem_singleton] at ha
              rw [ha]
          · cases h
            intro a ha
            split at ha
            · rw [List.mem_singleton] at ha
              rw [ha]
            · cases ha
    · cases h
      intro a ha
      split at ha
      · rw [List.mem_singleton] at ha
        rw [ha]
      · cases ha

lemma speciesAlerts_no_trend (window : ℕ) (actions : List (String × String))
    (rs : List Reading) (sp : String) (limit : ℚ) (out : List Alert)
    (h : speciesAlerts window actions rs sp limit = some out)
    (hlen : (rs.filter (fun r => r.species == sp)).length < window) :
    ∀ a ∈ out, a.type ≠ "trend" := by
  unfold speciesAlerts at h
  dsimp only at h
  split at h
  · cases h
    intro a ha
    cases ha
  · split at h
    · next hwin =>
      rw [List.length_map] at hwin
      omega
    · cases h
      intro a ha
      split at ha
      · rw [List.mem_singleton] at ha
        rw [ha]
        simp
      · cases ha

lemma speciesAlerts_trend (window : ℕ) (actions : List (String × String))
    (rs : List Reading) (sp : String) (limit : ℚ) (out : List Alert)
    (h : speciesAlerts window actions rs sp limit = some out) :
    ∀ a ∈ out, a.type = "trend" →
      window ≤ (rs.filter (fun r => r.species == sp)).length ∧
      (1 ≤ window →
        a.value = lastWindowMean
          ((rs.filter (fun r => r.species == sp)).map (fun r => r.concentration)) window) := by
  unfold speciesAlerts at h
  dsimp only at h
  split at h
  · cases h
    intro a ha
    cases ha
  · split at h
    · next hwin =>
      rw [List.length_map] at hwin
      split at h
      · cases h
      · next rm hrm =>
        split at h
        · cases h
        · next tv htv =>
          split at h
          · cases h
            intro a ha htype
            rw [List.mem_append] at ha
            have hval : a.value = tv := by
              rcases ha with ha | ha
              · split at ha
                · rw [List.mem_singleton] at ha
                  rw [ha] at htype
                  simp at htype
                · cases ha
              · rw [List.mem_singleton] at ha
                rw [ha]
            refine ⟨hwin, fun h1 => ?_⟩
            rw [hval]
            have := rolling_mean_getLast _ window h1 (by rwa [List.length_map]) rm hrm
            rw [htv] at this
            exact Option.some.inj this
          · cases h
            intro a ha htype
            split at ha
            · rw [List.mem_singleton] at ha
              rw [ha] at htype
              simp at htype
            · cases ha
    · cases h
      intro a ha htype
      split at ha
      · rw [List.mem_singleton] at ha
        rw [ha] at htype
        simp at htype
      · cases ha

/-! ## Lifting through the permit-species loop -/

lemma evaluatePermitAux_isSome (window : ℕ) (actions : List (String × String))
    (rs : List Reading) (limits : List (String × ℚ)) :
    (evaluatePermitAux window actions rs limits).isSome := by
  induction limits with
  | nil => rfl
  | cons hd rest ih =>
    obtain ⟨sp, l⟩ := hd
    unfold evaluatePermitAux
    cases hsa : speciesAlerts window actions rs sp l with
    | none =>
      have := speciesAlerts_isSome window actions rs sp l
      rw [hsa] at this
      cases this
    | some a =>
      cases hrest : evaluatePermitAux window actions rs rest with
      | none =>
        rw [hrest] at ih
        cases ih
      | some b => rfl

lemma evaluatePermitAux_species (window : ℕ) (actions : List (String × String))
    (rs : List Reading) (limits : List (String × ℚ)) (out : List Alert)
    (h : evaluatePermitAux window actions rs limits = some out) :
    ∀ a ∈ out, a.species ∈ limits.map Prod.fst := by
  induction limits generalizing out with
  | nil =>
    unfold evaluatePermitAux at h
    cases h
    intro a ha
    cases ha
  | cons hd rest ih =>
    obtain ⟨sp, l⟩ := hd
    unfold evaluatePermitAux at h
    split at h
    · cases h
    · next a hsa =>
      split at h
      · cases h
      · next b hrest =>
        cases h
        intro x hx
        rw [List.mem_append] at hx
        rw [List.map_cons]
        rcases hx with hx | hx
        · rw [speciesAlerts_species window actions rs sp l a hsa x hx]
          exact List.mem_cons_self _ _
        · exact List.mem_cons_of_mem _ (ih b hrest x hx)

lemma evaluatePermitAux_trend (window : ℕ) (actions : List (String × String))
    (rs : List Reading) (sp : String) (limits : List (String × ℚ)) (out : List Alert)
    (h : evaluatePermitAux window actions rs limits = some out) :
    ∀ a ∈ out, a.species = sp → a.type = "trend" →
      window ≤ (rs.filter (fun r => r.species == sp)).length ∧
      (1 ≤ window →
        a.value = lastWindowMean
          ((rs.filter (fun r => r.species == sp)).map (fun r => r.concentration)) window) := by
  induction limits generalizing out with
  | nil =>
    unfold evaluatePermitAux at h
    cases h
    intro a ha
    cases ha
  | cons hd rest ih =>
    obtain ⟨sp', l'⟩ := hd
    unfold evaluatePermitAux at h
    split at h
    · cases h
    · next a hsa =>
      split at h
      · cases h
      · next b hrest =>
        cases h
        intro x hx hxsp hxtype
        rw [List.mem_append] at hx
        rcases hx with hx | hx
        · have hsp' : sp' = sp := by
            rw [← speciesAlerts_species window actions rs sp' l' a hsa x hx, hxsp]
          rw [hsp'] at hsa
          exact speciesAlerts_trend window actions rs sp l' a hsa x hx hxtype
        · exact ih b hrest x hx hxsp hxtype

lemma speciesAlerts_single (window : ℕ) (actions : List (String × String))
    (rs : List Reading) (sp : String) (limit : ℚ) (r : Reading)
    (hone : rs.filter (fun r' => r'.species == sp) = [r])
    (hgt : r.concentration > limit) :
    ∃ out, speciesAlerts window actions rs sp limit = some out ∧
      out.filter (fun x => x.species == sp && x.type == "exceedance") =
        [exceedanceAlert actions sp limit r] := by
  unfold speciesAlerts
  rw [hone]
  dsimp only
  simp only [List.getLast?_singleton, List.map_cons, List.map_nil, List.length_cons,
    List.length_nil, Nat.zero_add]
  by_cases hw : window ≤ 1
  · rw [if_pos hw, rolling_mean_le_one _ window hw]
    dsimp only
    simp only [List.getLast?_singleton]
    rw [if_pos hgt, if_pos hgt]
    refine ⟨_, rfl, ?_⟩
    simp [List.filter, exceedanceAlert]
  · rw [if_neg hw, if_pos hgt]
    refine ⟨_, rfl, ?_⟩
    simp [List.filter, exceedanceAlert]

lemma evaluatePermitAux_exceed (window : ℕ) (actions : List (String × String))
    (rs : List Reading) (sp : String) (lmt : ℚ) (r : Reading)
    (limits : List (String × ℚ))
    (hnodup : (limits.map Prod.fst).Nodup)
    (hmem : (sp, lmt) ∈ limits)
    (hone : rs.filter (fun r' => r'.species == sp) = [r])
    (hgt : r.concentration > lmt) :
    ∃ out a, evaluatePermitAux window actions rs limits = some out ∧
      out.filter (fun x => x.species == sp && x.type == "exceedance") = [a] ∧
      a.value = r.concentration ∧ a.limit = lmt := by
  induction limits with
  | nil => cases hmem
  | cons hd rest ih =>
    obtain ⟨sp', l'⟩ := hd
    rw [List.map_cons, List.nodup_cons] at hnodup
    unfold evaluatePermitAux
    rw [List.mem_cons] at hmem
    rcases hmem with heq | hmemrest
    · cases heq
      obtain ⟨out1, hsa1, hfil1⟩ :=
        speciesAlerts_single window actions rs sp lmt r hone hgt
      rw [hsa1]
      cases hb : evaluatePermitAux window actions rs rest with
      | none =>
        have := evaluatePermitAux_isSome window actions rs rest
        rw [hb] at this
        cases this
      | some b =>
        have hfb : b.filter (fun x => x.species == sp && x.type == "exceedance") = [] := by
          rw [List.filter_eq_nil_iff]
          intro x hx
          have hxk := evaluatePermitAux_species window actions rs rest b hb x hx
          have hxne : x.species ≠ sp := by
            intro hcontra
            rw [hcontra] at hxk
            exact hnodup.1 hxk
          simp [hxne]
        refine ⟨out1 ++ b, exceedanceAlert actions sp lmt r, rfl, ?_, rfl, rfl⟩
        rw [List.filter_append, hfil1, hfb, List.append_nil]
    · have hspne : sp' ≠ sp := by
        intro hcontra
        have h1 : sp ∈ rest.map Prod.fst := List.mem_map_of_mem Prod.fst hmemrest
        rw [← hcontra] at h1
        exact hnodup.1 h1
      cases hsa : speciesAlerts window actions rs sp' l' with
      | none =>
        have := speciesAlerts_isSome window actions rs sp' l'
        rw [hsa] at this
        cases this
      | some out1 =>
        obtain ⟨b, a, hb, hfb, hv, hl⟩ := ih hnodup.2 hmemrest
        rw [hb]
        have hf1 : out1.filter (fun x => x.species == sp && x.type == "exceedance") = [] := by
          rw [List.filter_eq_nil_iff]
          intro x hx
          have hxsp := speciesAlerts_species window actions rs sp' l' out1 hsa x hx
          have hxne : x.species ≠ sp := by
            rw [hxsp]
            exact hspne
          simp [hxne]
        refine ⟨out1 ++ b, a, rfl, ?_, hv, hl⟩
        rw [List.filter_append, hf1, hfb]
        simp

/-! ## Severity monotonicity -/

lemma sevRank_get_severity_mono (l v1 v2 : ℚ) (hl : 0 < l) (hv : v1 ≤ v2) :
    sevRank (_get_severity v1 l) ≤ sevRank (_get_severity v2 l) := by
  have hr : v1 / l ≤ v2 / l := by gcongr
  unfold _get_severity
  dsimp only
  split_ifs <;> first | decide | (exfalso; linarith)

lemma sevRank_severity_mono (l v1 v2 : ℚ) (hl : 0 < l) (hv : v1 ≤ v2) :
    sevRank (_severity v1 l) ≤ sevRank (_severity v2 l) := by
  unfold _severity
  split_ifs <;> first | decide | (exfalso; linarith)

/-! ## Claim theorems for the rule engine -/

/-- **C1.** For every species with exactly one reading whose concentration
strictly exceeds its permit limit, `evaluate_permit` emits exactly one
`exceedance` alert for that species, with `value` equal to that reading's
concentration and `limit` equal to the permit limit. -/
theorem evaluate_permit_single_exceedance (rs : List Reading) (p : Permit)
    (sp : String) (lmt : ℚ) (r : Reading)
    (hnodup : (p.limits.map Prod.fst).Nodup)
    (hmem : (sp, lmt) ∈ p.limits)
    (hone : rs.filter (fun r' => r'.species == sp) = [r])
    (hgt : r.concentration > lmt) :
    ∃ alerts a, evaluate_permit rs p = some alerts ∧
      alerts.filter (fun x => x.species == sp && x.type == "exceedance") = [a] ∧
      a.value = r.concentration ∧ a.limit = lmt :=
  evaluatePermitAux_exceed p.rolling_window p.actions rs sp lmt r p.limits
    hnodup hmem hone hgt

/-- Witness for C1 at a concrete permit/reading. -/
theorem evaluate_permit_single_exceedance_witness :
    ∃ alerts a,
      evaluate_permit [⟨0, "SO4", 300⟩] ⟨[("SO4", 250)], 3, []⟩ = some alerts ∧
      alerts.filter (fun x => x.species == "SO4" && x.type == "exceedance") = [a] ∧
      a.value = 300 ∧ a.limit = 250 :=
  evaluate_permit_single_exceedance [⟨0, "SO4", 300⟩] ⟨[("SO4", 250)], 3, []⟩
    "SO4" 250 ⟨0, "SO4", 300⟩ (by decide) (by decide) (by decide) (by decide)

/-- **C2.** A species with strictly fewer readings than `rolling_window`
never yields a `trend` alert; any `trend` alert requires at least
`rolling_window` readings for its species, and its value is the simple
moving average of the last `rolling_window` concentrations. -/
theorem evaluate_permit_trend_window (rs : List Reading) (p : Permit) (sp : String)
    (alerts : List Alert) (h : evaluate_permit rs p = some alerts) :
    ((rs.filter (fun r => r.species == sp)).length < p.rolling_window →
      alerts.filter (fun a => a.species == sp && a.type == "trend") = []) ∧
    (∀ a ∈ alerts, a.species = sp → a.type = "trend" →
      p.rolling_window ≤ (rs.filter (fun r => r.species == sp)).length ∧
      (1 ≤ p.rolling_window →
        a.value = lastWindowMean
          ((rs.filter (fun r => r.species == sp)).map (fun r => r.concentration))
          p.rolling_window)) := by
  have htr := evaluatePermitAux_trend p.rolling_window p.actions rs sp p.limits alerts h
  constructor
  · intro hlen
    rw [List.filter_eq_nil_iff]
    intro a ha
    simp only [Bool.and_eq_true, beq_iff_eq, not_and]
    intro h1 h2
    have := (htr a ha h1 h2).1
    omega
  · exact htr

/-- Witness for C2 at a concrete (empty) readings list. -/
theorem evaluate_permit_trend_window_witness :
    (([] : List Reading).filter (fun r => r.species == "SO4")).length < 3 ∧
    ((([]: List Alert).filter (fun a => a.species == "SO4" && a.type == "trend")) = []) :=
  ⟨by decide,
    (evaluate_permit_trend_window [] ⟨[("SO4", 250)], 3, []⟩ "SO4" [] (by decide)).1
      (by decide)⟩

/-- **C3.** The primary tiering `_get_severity` is exactly the spec's
ratio-threshold function, the stricter tiering `_severity` is exactly the
spec's alternate function, the two strategies are distinct (they disagree
at value 11, limit 10), and each is monotone in `value/limit` under
info < watch < warning < critical. -/
theorem severity_two_strategies :
    (∀ v l : ℚ, _get_severity v l = specPrimaryTier (v / l)) ∧
    (∀ v l : ℚ, _severity v l = specStrictTier v l) ∧
    (_get_severity 11 10 ≠ _severity 11 10) ∧
    (∀ l v1 v2 : ℚ, 0 < l → v1 ≤ v2 →
      sevRank (_get_severity v1 l) ≤ sevRank (_get_severity v2 l)) ∧
    (∀ l v1 v2 : ℚ, 0 < l → v1 ≤ v2 →
      sevRank (_severity v1 l) ≤ sevRank (_severity v2 l)) :=
  ⟨fun _ _ => rfl, fun _ _ => rfl,
    by
      norm_num [_get_severity, _severity]
      decide,
    sevRank_get_severity_mono, sevRank_severity_mono⟩

/-- Witness for C3's monotonicity at concrete values. -/
theorem severity_two_strategies_witness :
    sevRank (_get_severity 250 250) ≤ sevRank (_get_severity 600 250) :=
  severity_two_strategies.2.2.2.1 250 250 600 (by norm_num) (by norm_num)

/-- **C10 (counterexample).** `rolling_mean` does **not** fail on a
nonempty input shorter than the window: at `x = [5]`, `w = 3` the valid
convolution is nonempty (three copies of the total sum), so the function
succeeds, returning a length-5 array. -/
theorem rolling_mean_short_input_succeeds :
    rolling_mean [5] 3 = some (List.replicate 5 ((5 : ℚ) / 3)) ∧
    (rolling_mean [5] 3).isSome = true := by
  have h := rolling_mean_short [5] 3 (by norm_num) (by simp) (by simp)
  constructor
  · rw [h]
    simp
  · rw [h]
    rfl

/-- **C10 (amended).** For `2 ≤ w ≤ |x|`, `rolling_mean` succeeds with a
same-length array whose last entry is the mean of the last `w` values and
whose first `w-1` entries equal the first full-window mean; for `w ≤ 1` it
returns the input unchanged; it fails only on empty input with `w ≥ 2`
(the convolution rejects an empty array); on nonempty input shorter than
the window it succeeds with a longer (length `2w - |x|`) array; and the
failing case is unreachable from `evaluate_permit`, which never fails. -/
theorem rolling_mean_characterization :
    (∀ (x : List ℚ) (w : ℕ), 2 ≤ w → w ≤ x.length →
      ∃ l, rolling_mean x w = some l ∧ l.length = x.length ∧
        l.getLast? = some (lastWindowMean x w) ∧
        l.take (w - 1) = List.replicate (w - 1) ((x.take w).sum / (w : ℚ))) ∧
    (∀ (x : List ℚ) (w : ℕ), w ≤ 1 → rolling_mean x w = some x) ∧
    (∀ w : ℕ, 2 ≤ w → rolling_mean [] w = none) ∧
    (∀ (x : List ℚ) (w : ℕ), 2 ≤ w → x ≠ [] → x.length < w →
      ∃ l, rolling_mean x w = some l ∧ l.length = 2 * w - x.length) ∧
    (∀ (rs : List Reading) (p : Permit), (evaluate_permit rs p).isSome) := by
  refine ⟨?_, rolling_mean_le_one, rolling_mean_empty, ?_, ?_⟩
  · intro x w h2 hwn
    refine ⟨_, rolling_mean_full x w h2 hwn, ?_, ?_, ?_⟩
    · simp only [List.length_append, List.length_replicate, List.length_map,
        List.length_range]
      omega
    · exact rolling_mean_getLast x w (by omega) hwn _ (rolling_mean_full x w h2 hwn)
    · have := List.take_left
        (List.replicate (w - 1) ((x.take w).sum / (w : ℚ)))
        ((List.range (x.length - w + 1)).map (fun j => ((x.drop j).take w).sum / (w : ℚ)))
      rwa [List.length_replicate] at this
  · intro x w h2 hne hlt
    exact ⟨_, rolling_mean_short x w h2 hne hlt, by simp⟩
  · intro rs p
    exact evaluatePermitAux_isSome p.rolling_window p.actions rs p.limits

/-- Witness for C10's amended characterization at a concrete input. -/
theorem rolling_mean_characterization_witness :
    ∃ l, rolling_mean [1, 2, 3] 2 = some l ∧ l.length = 3 ∧
      l.getLast? = some (lastWindowMean [1, 2, 3] 2) ∧
      l.take 1 = List.replicate 1 ((([1, 2, 3] : List ℚ).take 2).sum / (2 : ℚ)) :=
  rolling_mean_characterization.1 [1, 2, 3] 2 (by decide) (by decide)

/-! ## Hub buffer lemmas -/

lemma length_takeLast (m : ℕ) (l : List ℕ) : (takeLast m l).length = min m l.length := by
  simp only [takeLast, List.length_drop]
  omega

/-- One accepted append preserves the "buffer is the `m`-suffix of the
accepted log" invariant, for `m ≥ 1`. -/
lemma takeLast_step (m : ℕ) (hm : 1 ≤ m) (acc : List ℕ) (d : ℕ) :
    (if m < (takeLast m acc ++ [d]).length then pyTakeLast m (takeLast m acc ++ [d])
      else takeLast m acc ++ [d]) = takeLast m (acc ++ [d]) := by
  have hlen : (takeLast m acc).length = min m acc.length := length_takeLast m acc
  by_cases hlt : acc.length < m
  · have hc : ¬ m < (takeLast m acc ++ [d]).length := by
      simp only [List.length_append, hlen, List.length_singleton]
      omega
    rw [if_neg hc]
    simp only [takeLast, List.length_append, List.length_singleton]
    rw [show acc.length - m = 0 by omega, show acc.length + 1 - m = 0 by omega]
    simp
  · push_neg at hlt
    have hc : m < (takeLast m acc ++ [d]).length := by
      simp only [List.length_append, hlen, List.length_singleton]
      omega
    rw [if_pos hc]
    rw [pyTakeLast, if_neg (by omega : ¬ m = 0)]
    have hl1 : (takeLast m acc ++ [d]).length - m = 1 := by
      simp only [List.length_append, hlen, List.length_singleton]
      omega
    rw [hl1]
    simp only [takeLast]
    have hdlen : 1 ≤ (acc.drop (acc.length - m)).length := by
      simp only [List.length_drop]
      omega
    rw [List.drop_append_of_le_length hdlen, List.drop_drop]
    have h2 : (acc ++ [d]).length - m = acc.length - m + 1 := by
      simp only [List.length_append, List.length_singleton]
      omega
    rw [h2]
    rw [List.drop_append_of_le_length (by omega : acc.length - m + 1 ≤ acc.length)]

/-- Every `wsStep` either leaves buffer, accepted log, fan-out log and
publish log untouched (a dropped message), or performs the accepted-path
updates: append-and-trim the buffer, log the payload as accepted, fan out
to the non-sender connections whose sends succeed, and publish when the
Redis bridge is configured. -/
lemma wsStep_cases (cfg : WsConfig) (sendFails : String → Bool) (sender : String)
    (s : WsState) (m : WsMsg) :
    ((wsStep cfg sendFails sender s m).buffer = s.buffer ∧
     (wsStep cfg sendFails sender s m).accepted = s.accepted ∧
     (wsStep cfg sendFails sender s m).broadcasts = s.broadcasts ∧
     (wsStep cfg sendFails sender s m).published = s.published) ∨
    ((wsStep cfg sendFails sender s m).buffer =
        (if cfg.max_buffer < (s.buffer ++ [m.data]).length then
          pyTakeLast cfg.max_buffer (s.buffer ++ [m.data])
        else s.buffer ++ [m.data]) ∧
     (wsStep cfg sendFails sender s m).accepted = s.accepted ++ [m.data] ∧
     (wsStep cfg sendFails sender s m).broadcasts = s.broadcasts ++
        ((s.connections.filter (fun c => !(c == sender))).filter
          (fun c => !(sendFails c))).map (fun c => (c, m.data)) ∧
     (wsStep cfg sendFails sender s m).published = s.published ++
        (if cfg.redisEnabled then [(cfg.instance_id, m.data)] else [])) := by
  unfold wsStep
  dsimp only
  split
  · exact Or.inl ⟨rfl, rfl, rfl, rfl⟩
  · split
    · split
      · exact Or.inl ⟨rfl, rfl, rfl, rfl⟩
      · exact Or.inr ⟨rfl, rfl, rfl, rfl⟩
    · split_ifs <;> first
        | exact Or.inl ⟨rfl, rfl, rfl, rfl⟩
        | (right
           refine ⟨?_, rfl, rfl, rfl⟩
           simp [*])

lemma wsStep_buffer (cfg : WsConfig) (sendFails : String → Bool) (sender : String)
    (s : WsState) (m : WsMsg) (hm : 1 ≤ cfg.max_buffer)
    (hinv : s.buffer = takeLast cfg.max_buffer s.accepted) :
    (wsStep cfg sendFails sender s m).buffer =
      takeLast cfg.max_buffer (wsStep cfg sendFails sender s m).accepted := by
  rcases wsStep_cases cfg sendFails sender s m with ⟨hb, ha, _, _⟩ | ⟨hb, ha, _, _⟩
  · rw [hb, ha]
    exact hinv
  · rw [hb, ha, hinv]
    exact takeLast_step cfg.max_buffer hm s.accepted m.data

lemma wsRun_buffer (cfg : WsConfig) (sendFails : String → Bool) (sender : String)
    (msgs : List WsMsg) (hm : 1 ≤ cfg.max_buffer) :
    ∀ s : WsState, s.buffer = takeLast cfg.max_buffer s.accepted →
      (wsRun cfg sendFails sender s msgs).buffer =
        takeLast cfg.max_buffer (wsRun cfg sendFails sender s msgs).accepted := by
  induction msgs with
  | nil =>
    intro s h
    exact h
  | cons m ms ih =>
    intro s h
    exact ih _ (wsStep_buffer cfg sendFails sender s m hm h)

/-! ## Claim theorems for the hub -/

/-- **C4 (counterexample).** With `max_buffer = 0`, Python's trim
`buffer[-max_buffer:]` slices from index `-0 = 0` and keeps the whole
list, so a single accepted message already leaves the buffer longer than
`max_buffer`. -/
theorem buffer_bound_fails_at_zero_max :
    ((wsRun ⟨0, 8192, 20, false, "i"⟩ (fun _ => false) "c" (wsInit ["c"])
        [⟨0, 10, 7⟩]).buffer).length = 1 ∧
    ¬ ((wsRun ⟨0, 8192, 20, false, "i"⟩ (fun _ => false) "c" (wsInit ["c"])
        [⟨0, 10, 7⟩]).buffer).length ≤ (0 : ℕ) := by
  constructor
  · decide
  · decide

/-- **C4 (amended).** For every configuration with `max_buffer ≥ 1`, after
any sequence of inbound messages the buffer equals the `max_buffer`-suffix
of the accepted-message log (so the entries missing after overflow are
always the oldest) and its length never exceeds `max_buffer`. -/
theorem buffer_fifo_suffix (cfg : WsConfig) (sendFails : String → Bool)
    (sender : String) (conns : List String) (msgs : List WsMsg)
    (hm : 1 ≤ cfg.max_buffer) :
    (wsRun cfg sendFails sender (wsInit conns) msgs).buffer =
      takeLast cfg.max_buffer
        (wsRun cfg sendFails sender (wsInit conns) msgs).accepted ∧
    (wsRun cfg sendFails sender (wsInit conns) msgs).buffer.length ≤
      cfg.max_buffer := by
  have h := wsRun_buffer cfg sendFails sender msgs hm (wsInit conns)
    (by simp [wsInit, takeLast])
  refine ⟨h, ?_⟩
  rw [h, length_takeLast]
  omega

/-- Witness for C4's amended invariant on a concrete overflow run. -/
theorem buffer_fifo_suffix_witness :
    (wsRun ⟨2, 8192, 20, false, "i"⟩ (fun _ => false) "c" (wsInit ["c"])
        [⟨0, 10, 1⟩, ⟨0, 10, 2⟩, ⟨0, 10, 3⟩]).buffer =
      takeLast 2 (wsRun ⟨2, 8192, 20, false, "i"⟩ (fun _ => false) "c" (wsInit ["c"])
        [⟨0, 10, 1⟩, ⟨0, 10, 2⟩, ⟨0, 10, 3⟩]).accepted ∧
    (wsRun ⟨2, 8192, 20, false, "i"⟩ (fun _ => false) "c" (wsInit ["c"])
        [⟨0, 10, 1⟩, ⟨0, 10, 2⟩, ⟨0, 10, 3⟩]).buffer.length ≤ 2 :=
  buffer_fifo_suffix ⟨2, 8192, 20, false, "i"⟩ (fun _ => false) "c" ["c"]
    [⟨0, 10, 1⟩, ⟨0, 10, 2⟩, ⟨0, 10, 3⟩] (by decide)

/-- **C5.** The local fan-out never delivers to the sending connection;
everything this instance publishes carries its own origin tag; the bridge
subscriber skips messages carrying this instance's tag and never
re-publishes anything, and it only delivers messages whose origin differs
from this instance's identity. -/
theorem fanout_no_echo_no_republish :
    (∀ (cfg : WsConfig) (sendFails : String → Bool) (sender : String)
        (s : WsState) (m : WsMsg) (p : String × ℕ),
      p ∈ (wsStep cfg sendFails sender s m).broadcasts →
        p ∈ s.broadcasts ∨ p.1 ≠ sender) ∧
    (∀ (cfg : WsConfig) (sendFails : String → Bool) (sender : String)
        (s : WsState) (m : WsMsg) (q : String × ℕ),
      q ∈ (wsStep cfg sendFails sender s m).published →
        q ∈ s.published ∨ q.1 = cfg.instance_id) ∧
    (∀ (iid : String) (conns : List String) (sendFails : String → Bool) (d : ℕ),
      redisStep iid conns sendFails ⟨iid, d⟩ = ([], [])) ∧
    (∀ (iid : String) (conns : List String) (sendFails : String → Bool)
        (m : BridgeMsg),
      (redisStep iid conns sendFails m).2 = [] ∧
      ((redisStep iid conns sendFails m).1 ≠ [] → m.origin ≠ iid)) := by
  refine ⟨?_, ?_, ?_, ?_⟩
  · intro cfg sendFails sender s m p hp
    rcases wsStep_cases cfg sendFails sender s m with ⟨_, _, hbr, _⟩ | ⟨_, _, hbr, _⟩
    · rw [hbr] at hp
      exact Or.inl hp
    · rw [hbr, List.mem_append] at hp
      rcases hp with hp | hp
      · exact Or.inl hp
      · right
        rw [List.mem_map] at hp
        obtain ⟨c, hc, hpc⟩ := hp
        rw [List.mem_filter] at hc
        rw [List.mem_filter] at hc
        have hcs := hc.1.2
        rw [← hpc]
        simpa using hcs
  · intro cfg sendFails sender s m q hq
    rcases wsStep_cases cfg sendFails sender s m with ⟨_, _, _, hpub⟩ | ⟨_, _, _, hpub⟩
    · rw [hpub] at hq
      exact Or.inl hq
    · rw [hpub, List.mem_append] at hq
      rcases hq with hq | hq
      · exact Or.inl hq
      · right
        split at hq
        · rw [List.mem_singleton] at hq
          rw [hq]
        · cases hq
  · intro iid conns sendFails d
    simp [redisStep]
  · intro iid conns sendFails m
    constructor
    · unfold redisStep
      split <;> rfl
    · unfold redisStep
      split
      · intro hne
        exact absurd rfl hne
      · next hbeq =>
        intro _
        simpa using hbeq

/-- Witness for C5's local no-echo property on a concrete broadcast. -/
theorem fanout_no_echo_witness :
    ("a", 5) ∈ (wsInit ["snd", "a"]).broadcasts ∨ "a" ≠ "snd" :=
  fanout_no_echo_no_republish.1 ⟨1024, 8192, 20, false, "i"⟩ (fun _ => false)
    "snd" (wsInit ["snd", "a"]) ⟨0, 10, 5⟩ ("a", 5) (by decide)

/-- **C6.** An inbound message larger than the byte ceiling is dropped
silently: the receive counter and the error counter each advance by
exactly one, and the buffer, the fan-out log, the publish log, the
accepted log, the connection set and the rate-limiter state are all
unchanged. -/
theorem oversize_message_dropped (cfg : WsConfig) (sendFails : String → Bool)
    (sender : String) (s : WsState) (m : WsMsg)
    (hsize : cfg.max_msg < m.size) :
    wsStep cfg sendFails sender s m =
      { s with msg_recv_total := s.msg_recv_total + 1,
               ws_errors_total := s.ws_errors_total + 1 } := by
  unfold wsStep
  dsimp only
  rw [if_pos hsize]

/-- Witness for C6 at the default 8192-byte ceiling and a 9000-byte
message. -/
theorem oversize_message_dropped_witness :
    wsStep ⟨1024, 8192, 20, false, "i"⟩ (fun _ => false) "c" (wsInit ["c"])
        ⟨0, 9000, 7⟩ =
      { wsInit ["c"] with msg_recv_total := 1, ws_errors_total := 1 } :=
  oversize_message_dropped ⟨1024, 8192, 20, false, "i"⟩ (fun _ => false) "c"
    (wsInit ["c"]) ⟨0, 9000, 7⟩ (by decide)

/-! ## Advice client lemmas -/

lemma adviseLoop_attempts_pos (cfg : AgentConfig) (net : ℕ → Option RawOut)
    (now : ℚ) (key : String × List SanAlert) :
    ∀ (gas a : ℕ) (st : AgentState), a ≤ (adviseLoop cfg net now key a gas st).2.2 := by
  intro gas
  induction gas with
  | zero =>
    intro a st
    unfold adviseLoop
    cases hnet : net a with
    | some raw => exact le_refl a
    | none => exact le_refl a
  | succ gas ih =>
    intro a st
    unfold adviseLoop
    cases hnet : net a with
    | some raw => exact le_refl a
    | none =>
      dsimp only
      exact le_trans (Nat.le_succ a) (ih (a + 1) _)

lemma adviseLoop_allfail (cfg : AgentConfig) (net : ℕ → Option RawOut)
    (now : ℚ) (key : String × List SanAlert) (hfail : ∀ i, net i = none) :
    ∀ (gas a : ℕ) (st : AgentState),
      adviseLoop cfg net now key a gas st =
        (degradedFail,
         { st with failures := st.failures ++ List.replicate (gas + 1) now },
         a + gas) := by
  intro gas
  induction gas with
  | zero =>
    intro a st
    unfold adviseLoop
    rw [hfail a]
    rfl
  | succ gas ih =>
    intro a st
    unfold adviseLoop
    rw [hfail a]
    dsimp only
    rw [ih (a + 1)]
    simp only [Prod.mk.injEq]
    refine ⟨trivial, ?_, by omega⟩
    congr 1
    rw [List.append_assoc]
    rfl

/-! ### Cache table lemmas -/

lemma find?_append_none {α : Type} (p : α → Bool) (l1 l2 : List α)
    (h : l1.find? p = none) : (l1 ++ l2).find? p = l2.find? p := by
  induction l1 with
  | nil => rfl
  | cons a t ih =>
    by_cases hpa : p a
    · rw [List.find?_cons_of_pos _ hpa] at h
      cases h
    · rw [List.find?_cons_of_neg _ (by simpa using hpa)] at h
      rw [List.cons_append, List.find?_cons_of_neg _ (by simpa using hpa)]
      exact ih h

lemma find?_map_upsert (k : String × List SanAlert) (v : AdviceResponse) :
    ∀ cache : List ((String × List SanAlert) × AdviceResponse),
      (cache.find? (fun p => decide (p.1 = k))).isSome →
      (cache.map (fun p => if p.1 = k then (k, v) else p)).find?
        (fun p => decide (p.1 = k)) = some (k, v) := by
  intro cache
  induction cache with
  | nil =>
    intro h
    cases h
  | cons c t ih =>
    intro h
    by_cases hc : c.1 = k
    · rw [List.map_cons, if_pos hc]
      exact List.find?_cons_of_pos _ (by simp)
    · rw [List.map_cons, if_neg hc]
      rw [List.find?_cons_of_neg _ (by simpa using hc)]
      apply ih
      rw [List.find?_cons_of_neg _ (by simpa using hc)] at h
      exact h

lemma find?_map_upsert_ne (k k0 : String × List SanAlert) (v : AdviceResponse)
    (hne : k0 ≠ k) :
    ∀ cache : List ((String × List SanAlert) × AdviceResponse),
      (cache.map (fun p => if p.1 = k then (k, v) else p)).find?
        (fun p => decide (p.1 = k0)) =
      cache.find? (fun p => decide (p.1 = k0)) := by
  intro cache
  induction cache with
  | nil => rfl
  | cons c t ih =>
    by_cases hc : c.1 = k
    · have hck0 : ¬ c.1 = k0 := by
        rw [hc]
        exact fun h => hne h.symm
      rw [List.map_cons, if_pos hc]
      rw [List.find?_cons_of_neg _ (by simp; exact fun h => hne h.symm)]
      rw [List.find?_cons_of_neg _ (by simpa using hck0)]
      exact ih
    · rw [List.map_cons, if_neg hc]
      by_cases hck : c.1 = k0
      · rw [List.find?_cons_of_pos _ (by simpa using hck),
          List.find?_cons_of_pos _ (by simpa using hck)]
      · rw [List.find?_cons_of_neg _ (by simpa using hck),
          List.find?_cons_of_neg _ (by simpa using hck)]
        exact ih

lemma find?_upsert_self (k : String × List SanAlert) (v : AdviceResponse)
    (cache : List ((String × List SanAlert) × AdviceResponse)) :
    (cacheUpsert cache k v).find? (fun p => decide (p.1 = k)) = some (k, v) := by
  unfold cacheUpsert
  by_cases hs : (cache.find? (fun p => decide (p.1 = k))).isSome
  · rw [if_pos hs]
    exact find?_map_upsert k v cache hs
  · rw [if_neg hs]
    have hnone : cache.find? (fun p => decide (p.1 = k)) = none := by
      cases h2 : cache.find? (fun p => decide (p.1 = k)) with
      | none => rfl
      | some p =>
        rw [h2] at hs
        simp at hs
    rw [find?_append_none _ _ _ hnone]
    exact List.find?_cons_of_pos _ (by simp)

lemma find?_upsert_ne (k k0 : String × List SanAlert) (v : AdviceResponse)
    (hne : k0 ≠ k)
    (cache : List ((String × List SanAlert) × AdviceResponse)) :
    (cacheUpsert cache k v).find? (fun p => decide (p.1 = k0)) =
      cache.find? (fun p => decide (p.1 = k0)) := by
  unfold cacheUpsert
  by_cases hs : (cache.find? (fun p => decide (p.1 = k))).isSome
  · rw [if_pos hs]
    exact find?_map_upsert_ne k k0 v hne cache
  · rw [if_neg hs]
    cases h0 : cache.find? (fun p => decide (p.1 = k0)) with
    | some p =>
      exact (List.find?_append ..) ▸ (by rw [h0]; rfl)
    | none =>
      rw [find?_append_none _ _ _ h0]
      rw [List.find?_cons_of_neg _ (by simp; exact fun h => hne h.symm)]
      rfl

lemma cache_get_set_self (cfg : AgentConfig) (st : AgentState)
    (k : String × List SanAlert) (v : AdviceResponse)
    (hc : cfg.cacheEnabled = true) :
    _cache_get cfg (_cache_set cfg st k v) k = some v := by
  unfold _cache_get _cache_set
  rw [hc]
  simp only [if_true]
  rw [find?_upsert_self]

lemma cache_get_set_ne (cfg : AgentConfig) (st : AgentState)
    (k k0 : String × List SanAlert) (v : AdviceResponse) (hne : k0 ≠ k) :
    _cache_get cfg (_cache_set cfg st k v) k0 = _cache_get cfg st k0 := by
  unfold _cache_get _cache_set
  by_cases hc : cfg.cacheEnabled = true
  · rw [hc]
    simp only [if_true]
    rw [find?_upsert_ne k k0 v hne]
  · rw [if_neg hc, if_neg hc]

lemma adviseLoop_cache (cfg : AgentConfig) (net : ℕ → Option RawOut)
    (now : ℚ) (key : String × List SanAlert) (hc : cfg.cacheEnabled = true) :
    ∀ (gas a : ℕ) (st : AgentState) (out : AdviceResponse) (st' : AgentState) (n : ℕ),
      adviseLoop cfg net now key a gas st = (out, st', n) →
      (net n).isSome →
      _cache_get cfg st' key = some out := by
  intro gas
  induction gas with
  | zero =>
    intro a st out st' n h hok
    unfold adviseLoop at h
    cases hnet : net a with
    | some raw =>
      rw [hnet] at h
      dsimp only at h
      simp only [Prod.mk.injEq] at h
      rw [← h.2.1, ← h.1]
      exact cache_get_set_self cfg st key _ hc
    | none =>
      rw [hnet] at h
      dsimp only at h
      simp only [Prod.mk.injEq] at h
      rw [← h.2.2, hnet] at hok
      cases hok
  | succ gas ih =>
    intro a st out st' n h hok
    unfold adviseLoop at h
    cases hnet : net a with
    | some raw =>
      rw [hnet] at h
      dsimp only at h
      simp only [Prod.mk.injEq] at h
      rw [← h.2.1, ← h.1]
      exact cache_get_set_self cfg st key _ hc
    | none =>
      rw [hnet] at h
      dsimp only at h
      exact ih (a + 1) _ out st' n h hok

lemma adviseLoop_preserve (cfg : AgentConfig) (net : ℕ → Option RawOut)
    (now : ℚ) (key : String × List SanAlert) (k0 : String × List SanAlert)
    (hne : k0 ≠ key) :
    ∀ (gas a : ℕ) (st : AgentState),
      _cache_get cfg ((adviseLoop cfg net now key a gas st).2.1) k0 =
        _cache_get cfg st k0 := by
  intro gas
  induction gas with
  | zero =>
    intro a st
    unfold adviseLoop
    cases hnet : net a with
    | some raw => exact cache_get_set_ne cfg st key k0 _ hne
    | none => rfl
  | succ gas ih =>
    intro a st
    unfold adviseLoop
    cases hnet : net a with
    | some raw => exact cache_get_set_ne cfg st key k0 _ hne
    | none =>
      dsimp only
      exact ih (a + 1) _

/-! ### `advise` path equations -/

lemma advise_open_eq (cfg : AgentConfig) (st : AgentState) (now : ℚ)
    (net : ℕ → Option RawOut) (alerts : List AlertDict)
    (hmiss : _cache_get cfg st (_cache_key cfg.model (_sanitize_alerts alerts)) = none)
    (hopen : cfg.breaker_threshold ≤
      (prunedFailures cfg.breaker_window_sec now st.failures).length) :
    advise cfg st now net alerts =
      (degradedOpen,
       { st with failures := prunedFailures cfg.breaker_window_sec now st.failures },
       0) := by
  unfold advise
  dsimp only
  rw [hmiss]
  dsimp only
  rw [if_pos hopen]

lemma advise_allfail_eq (cfg : AgentConfig) (st : AgentState) (now : ℚ)
    (net : ℕ → Option RawOut) (alerts : List AlertDict)
    (hmiss : _cache_get cfg st (_cache_key cfg.model (_sanitize_alerts alerts)) = none)
    (hclosed : (prunedFailures cfg.breaker_window_sec now st.failures).length <
      cfg.breaker_threshold)
    (hfail : ∀ i, net i = none) :
    advise cfg st now net alerts =
      (degradedFail,
       { st with failures := prunedFailures cfg.breaker_window_sec now st.failures ++
           List.replicate (cfg.max_retries - 1 + 1) now },
       1 + (cfg.max_retries - 1)) := by
  unfold advise
  dsimp only
  rw [hmiss]
  dsimp only
  rw [if_neg (by omega)]
  exact adviseLoop_allfail cfg net now _ hfail (cfg.max_retries - 1) 1 _

lemma advise_first_success_eq (cfg : AgentConfig) (st : AgentState) (now : ℚ)
    (net : ℕ → Option RawOut) (alerts : List AlertDict) (raw : RawOut)
    (hmiss : _cache_get cfg st (_cache_key cfg.model (_sanitize_alerts alerts)) = none)
    (hclosed : (prunedFailures cfg.breaker_window_sec now st.failures).length <
      cfg.breaker_threshold)
    (hone : net 1 = some raw) :
    advise cfg st now net alerts =
      (coerceOut raw,
       _cache_set cfg
         { st with failures := prunedFailures cfg.breaker_window_sec now st.failures }
         (_cache_key cfg.model (_sanitize_alerts alerts)) (coerceOut raw),
       1) := by
  unfold advise
  dsimp only
  rw [hmiss]
  dsimp only
  rw [if_neg (by omega)]
  unfold adviseLoop
  rw [hone]

/-! ## Claim theorems for the advice client -/

/-- **C7 (counterexample).** The open-breaker short-circuit's rationale is
`"Upstream unavailable (circuit open)."`, not the claimed `"Upstream
unavailable"`; moreover a cached payload is returned before the breaker is
even consulted, so an open breaker does not imply the degraded
response. -/
theorem breaker_degraded_mismatch :
    (advise ⟨"m", 3, 1, 60, true⟩ ⟨[0], []⟩ 0 (fun _ => none) []).1.rationale ≠
      "Upstream unavailable" ∧
    (advise ⟨"m", 3, 1, 60, true⟩ ⟨[0], [(("m", []), ⟨["A"], "R"⟩)]⟩ 0
        (fun _ => none) []).1 ≠ degradedOpen := by
  have h1 := advise_open_eq ⟨"m", 3, 1, 60, true⟩ ⟨[0], []⟩ 0 (fun _ => none) []
    (by decide) (by norm_num [prunedFailures, List.filter_cons, List.filter_nil])
  constructor
  · rw [h1]
    decide
  · have h2 : advise ⟨"m", 3, 1, 60, true⟩ ⟨[0], [(("m", []), ⟨["A"], "R"⟩)]⟩ 0
        (fun _ => none) [] =
        (⟨["A"], "R"⟩, ⟨[0], [(("m", []), ⟨["A"], "R"⟩)]⟩, 0) := rfl
    rw [h2]
    decide

/-- **C7 (amended).** On a cache miss, whenever at least
`breaker_threshold` failures remain within the trailing window, `advise`
short-circuits with the fixed degraded response — actions
`["Check process"]`, rationale `"Upstream unavailable (circuit open)."` —
making zero network attempts (and pruning the stored failure list); and
once every recorded failure has aged out of the window (with a positive
threshold), the next call performs at least one network attempt again —
there is no separate half-open state. -/
theorem breaker_short_circuit_and_reopen (cfg : AgentConfig) (st : AgentState)
    (now : ℚ) (net : ℕ → Option RawOut) (alerts : List AlertDict)
    (hmiss : _cache_get cfg st (_cache_key cfg.model (_sanitize_alerts alerts)) = none) :
    (cfg.breaker_threshold ≤
        (prunedFailures cfg.breaker_window_sec now st.failures).length →
      advise cfg st now net alerts =
        (degradedOpen,
         { st with failures := prunedFailures cfg.breaker_window_sec now st.failures },
         0)) ∧
    ((∀ t ∈ st.failures, cfg.breaker_window_sec < now - t) →
      1 ≤ cfg.breaker_threshold →
      1 ≤ (advise cfg st now net alerts).2.2) := by
  constructor
  · exact advise_open_eq cfg st now net alerts hmiss
  · intro hold hthresh
    have hempty : prunedFailures cfg.breaker_window_sec now st.failures = [] := by
      unfold prunedFailures
      rw [List.filter_eq_nil_iff]
      intro t ht
      simp only [decide_eq_true_eq]
      exact not_le.mpr (hold t ht)
    unfold advise
    dsimp only
    rw [hmiss]
    dsimp only
    rw [hempty]
    rw [if_neg (by simp only [List.length_nil]; omega)]
    exact adviseLoop_attempts_pos cfg net now _ (cfg.max_retries - 1) 1 _

/-- Witness for C7's amended short-circuit at a concrete open breaker. -/
theorem breaker_short_circuit_witness :
    advise ⟨"m", 3, 1, 60, true⟩ ⟨[0], []⟩ 0 (fun _ => none) [] =
      (degradedOpen, ⟨prunedFailures 60 0 [0], []⟩, 0) :=
  (breaker_short_circuit_and_reopen ⟨"m", 3, 1, 60, true⟩ ⟨[0], []⟩ 0
      (fun _ => none) [] (by decide)).1
    (by norm_num [prunedFailures, List.filter_cons, List.filter_nil])

/-- **C8 (counterexample).** Exhausting retries returns rationale
`"Failed to retrieve advice."`, not the circuit-breaker short-circuit's
rationale — the two degraded responses share their actions but are not
identical. -/
theorem retry_exhaustion_response_mismatch :
    (advise ⟨"m", 3, 5, 60, true⟩ ⟨[], []⟩ 0 (fun _ => none) []).1 = degradedFail ∧
    degradedFail ≠ degradedOpen ∧
    degradedFail.actions = degradedOpen.actions := by
  refine ⟨?_, by decide, rfl⟩
  rw [advise_allfail_eq ⟨"m", 3, 5, 60, true⟩ ⟨[], []⟩ 0 (fun _ => none) []
    (by decide) (by decide) (fun _ => rfl)]

/-- **C8 (amended).** `advise` is total (the model returns a value on
every input); on a cache miss with the breaker closed and every attempt
failing, it returns the degraded response with the *same actions* as the
breaker short-circuit but rationale `"Failed to retrieve advice."`,
after exactly `max(max_retries, 1)` attempts, each of whose failures was
recorded into the breaker window — and nothing else is added to the
failure list for the call as a whole. -/
theorem advise_retries_exhausted (cfg : AgentConfig) (st : AgentState) (now : ℚ)
    (net : ℕ → Option RawOut) (alerts : List AlertDict)
    (hmiss : _cache_get cfg st (_cache_key cfg.model (_sanitize_alerts alerts)) = none)
    (hclosed : (prunedFailures cfg.breaker_window_sec now st.failures).length <
      cfg.breaker_threshold)
    (hfail : ∀ i, net i = none) :
    advise cfg st now net alerts =
      (degradedFail,
       { st with failures := prunedFailures cfg.breaker_window_sec now st.failures ++
           List.replicate (max cfg.max_retries 1) now },
       max cfg.max_retries 1) ∧
    degradedFail.actions = degradedOpen.actions := by
  refine ⟨?_, rfl⟩
  rw [advise_allfail_eq cfg st now net alerts hmiss hclosed hfail]
  rw [show cfg.max_retries - 1 + 1 = max cfg.max_retries 1 from by omega]
  rw [show 1 + (cfg.max_retries - 1) = max cfg.max_retries 1 from by omega]

/-- Witness for C8 at a concrete all-failing run with the default three
retries. -/
theorem advise_retries_exhausted_witness :
    (advise ⟨"m", 3, 5, 60, true⟩ ⟨[], []⟩ 0 (fun _ => none) [] =
      (degradedFail,
       ⟨prunedFailures 60 0 [] ++ List.replicate (max 3 1) 0, []⟩,
       max 3 1)) ∧
    degradedFail.actions = degradedOpen.actions :=
  advise_retries_exhausted ⟨"m", 3, 5, 60, true⟩ ⟨[], []⟩ 0 (fun _ => none) []
    (by decide) (by decide) (fun _ => rfl)

/-- **C9 (counterexample).** A first call whose attempts all fail returns
the degraded response *without* writing the cache, so a second call with
the identical sanitized payload and the same model performs a fresh
network attempt and returns a different output. -/
theorem cache_skipped_on_degraded_first_call :
    (advise ⟨"m", 1, 5, 60, true⟩ ⟨[], []⟩ 0 (fun _ => none) []).1 ≠
      (advise ⟨"m", 1, 5, 60, true⟩
        (advise ⟨"m", 1, 5, 60, true⟩ ⟨[], []⟩ 0 (fun _ => none) []).2.1 0
        (fun _ => some ⟨some ["A"], some "R"⟩) []).1 ∧
    (advise ⟨"m", 1, 5, 60, true⟩
        (advise ⟨"m", 1, 5, 60, true⟩ ⟨[], []⟩ 0 (fun _ => none) []).2.1 0
        (fun _ => some ⟨some ["A"], some "R"⟩) []).2.2 ≠ 0 := by
  have hA : advise ⟨"m", 1, 5, 60, true⟩ ⟨[], []⟩ 0 (fun _ => none) [] =
      (degradedFail, ⟨[0], []⟩, 1) :=
    advise_allfail_eq ⟨"m", 1, 5, 60, true⟩ ⟨[], []⟩ 0 (fun _ => none) []
      (by decide) (by decide) (fun _ => rfl)
  have hB : advise ⟨"m", 1, 5, 60, true⟩ ⟨[0], []⟩ 0
      (fun _ => some ⟨some ["A"], some "R"⟩) [] =
      (⟨["A"], "R"⟩, ⟨prunedFailures 60 0 [0], [(("m", []), ⟨["A"], "R"⟩)]⟩, 1) :=
    advise_first_success_eq ⟨"m", 1, 5, 60, true⟩ ⟨[0], []⟩ 0
      (fun _ => some ⟨some ["A"], some "R"⟩) [] ⟨some ["A"], some "R"⟩
      (by decide)
      (by norm_num [prunedFailures, List.filter_cons, List.filter_nil])
      rfl
  rw [hA]
  constructor
  · rw [hB]
    decide
  · rw [hB]
    decide

/-- **C9 (amended).** If a first `advise` call actually reached the
network and its returning attempt succeeded (so the response was written
through to the enabled cache), then any later call on the resulting state
with the same model and an identical sanitized payload returns the
identical output with zero network attempts, leaving the state untouched;
and no `advise` call ever removes or changes an existing cache entry
(entries never expire). -/
theorem advise_cache_determinism :
    (∀ (cfg : AgentConfig) (st0 st1 : AgentState) (now1 now2 : ℚ)
        (net1 net2 : ℕ → Option RawOut) (alerts1 alerts2 : List AlertDict)
        (out : AdviceResponse) (n : ℕ),
      cfg.cacheEnabled = true →
      advise cfg st0 now1 net1 alerts1 = (out, st1, n) →
      1 ≤ n → (net1 n).isSome →
      _sanitize_alerts alerts2 = _sanitize_alerts alerts1 →
      advise cfg st1 now2 net2 alerts2 = (out, st1, 0)) ∧
    (∀ (cfg : AgentConfig) (st : AgentState) (now : ℚ) (net : ℕ → Option RawOut)
        (alerts : List AlertDict) (k0 : String × List SanAlert) (v0 : AdviceResponse),
      _cache_get cfg st k0 = some v0 →
      _cache_get cfg (advise cfg st now net alerts).2.1 k0 = some v0) := by
  constructor
  · intro cfg st0 st1 now1 now2 net1 net2 alerts1 alerts2 out n hc h1 hn hok hsame
    have hkey : _cache_get cfg st1 (_cache_key cfg.model (_sanitize_alerts alerts1)) =
        some out := by
      unfold advise at h1
      dsimp only at h1
      cases hlook : _cache_get cfg st0 (_cache_key cfg.model (_sanitize_alerts alerts1)) with
      | some v =>
        rw [hlook] at h1
        dsimp only at h1
        simp only [Prod.mk.injEq] at h1
        omega
      | none =>
        rw [hlook] at h1
        dsimp only at h1
        split at h1
        · simp only [Prod.mk.injEq] at h1
          omega
        · exact adviseLoop_cache cfg net1 now1 _ hc (cfg.max_retries - 1) 1 _
            out st1 n h1 hok
    unfold advise
    dsimp only
    rw [hsame, hkey]
  · intro cfg st now net alerts k0 v0 h0
    unfold advise
    dsimp only
    cases hlook : _cache_get cfg st (_cache_key cfg.model (_sanitize_alerts alerts)) with
    | some v =>
      dsimp only
      exact h0
    | none =>
      dsimp only
      split
      · exact h0
      · have hne : k0 ≠ _cache_key cfg.model (_sanitize_alerts alerts) := by
          intro heq
          rw [heq, hlook] at h0
          cases h0
        rw [adviseLoop_preserve cfg net now _ k0 hne (cfg.max_retries - 1) 1 _]
        exact h0

/-- Witness for C9: a successful first call writes the cache, and a later
call with the same payload returns the cached output with no attempt. -/
theorem advise_cache_determinism_witness :
    advise ⟨"m", 3, 5, 60, true⟩ ⟨[], [(("m", []), ⟨["A"], "R"⟩)]⟩ 99
        (fun _ => none) [] =
      (⟨["A"], "R"⟩, ⟨[], [(("m", []), ⟨["A"], "R"⟩)]⟩, 0) :=
  advise_cache_determinism.1 ⟨"m", 3, 5, 60, true⟩ ⟨[], []⟩
    ⟨[], [(("m", []), ⟨["A"], "R"⟩)]⟩ 0 99
    (fun _ => some ⟨some ["A"], some "R"⟩) (fun _ => none) [] []
    ⟨["A"], "R"⟩ 1 rfl
    (advise_first_success_eq ⟨"m", 3, 5, 60, true⟩ ⟨[], []⟩ 0
      (fun _ => some ⟨some ["A"], some "R"⟩) [] ⟨some ["A"], some "R"⟩
      (by decide) (by decide) rfl)
    (by decide) rfl rfl

end OWSC
